import Mathlib

/-!
# Verification of the mock ADB server against its specification

This file gives a shallow embedding, in Lean 4, of the protocol core of the
repository: the binary ADB packet codec (`src/cto/protocol.py`), the sync
service stream (`adb_server/streams/sync.py`) together with the in-memory
filesystem it writes to (`adb_server/filesystem.py`), the one-shot shell
stream (`adb_server/streams/shell.py`), the transport session handlers
(`adb_server/transport.py`) and the host text protocol dispatcher
(`adb_server/host.py`).  Bytes are modelled as natural numbers below 256,
byte strings as `List Nat`, and 32-bit machine arithmetic as `Nat` reduced
modulo `2 ^ 32` where the source wraps.  Fallible operations return
`Except`.  The theorems at the end of the file settle the testable
properties stated in the specification.
-/

namespace AdbCodec

/-- `ADBPacket.checksum` from `src/cto/protocol.py`: `sum(data) & 0xFFFFFFFF`,
the arithmetic sum of the payload bytes reduced modulo `2 ^ 32`. -/
def checksum (data : List Nat) : Nat :=
  data.sum % 2 ^ 32

/-- Little-endian serialisation of one 32-bit header field, as produced by
`struct.Struct("<IIIIII").pack` for a field value below `2 ^ 32` (values
are reduced modulo `2 ^ 32`, which agrees with `struct.pack` on its whole
domain of in-range values). -/
def le32 (n : Nat) : List Nat :=
  [n % 256, n / 256 % 256, n / 65536 % 256, n / 16777216 % 256]

/-- The six-field ADB packet of `src/cto/protocol.py` (`command`, `arg0`,
`arg1`, payload); `length`, `checksum` and `magic` are derived on encode. -/
structure ADBPacket where
  command : Nat
  arg0 : Nat
  arg1 : Nat
  payload : List Nat
deriving DecidableEq, Repr

/-- `ADBPacket.magic`: `command ^ 0xFFFFFFFF`. -/
def ADBPacket.magic (p : ADBPacket) : Nat :=
  p.command ^^^ 0xFFFFFFFF

/-- `ADBPacket.to_bytes`: the 24-byte header — six little-endian `u32`
fields `command, arg0, arg1, len(payload), checksum(payload), magic` —
followed by the payload. -/
def ADBPacket.to_bytes (p : ADBPacket) : List Nat :=
  le32 p.command ++ le32 p.arg0 ++ le32 p.arg1 ++
    le32 p.payload.length ++ le32 (checksum p.payload) ++ le32 p.magic ++
    p.payload

/-- The error taxonomy of `from_bytes`: `ADBTruncatedError` (with its
message), `ADBMagicError`, `ADBChecksumError`. -/
inductive DecodeError where
  | truncated (msg : String)
  | magicMismatch
  | checksumMismatch
deriving DecidableEq, Repr

/-- `struct.unpack_from`-style read of the little-endian `u32` at byte
offset `off` (callers establish that the four bytes are present). -/
def readLe32 (raw : List Nat) (off : Nat) : Nat :=
  raw.getD off 0 + 256 * raw.getD (off + 1) 0 +
    65536 * raw.getD (off + 2) 0 + 16777216 * raw.getD (off + 3) 0

/-- `ADBPacket.from_bytes`: reject a buffer shorter than the 24-byte
header, unpack the six fields (`command` at offset 0, `arg0` at 4, `arg1`
at 8, `length` at 12, `checksum` at 16, `magic` at 20), check
`magic = command ^ 0xFFFFFFFF`, check `len(raw) = 24 + length`, slice the
payload `raw[24 : 24 + length]` and check its checksum. -/
def ADBPacket.from_bytes (raw : List Nat) : Except DecodeError ADBPacket :=
  if raw.length < 24 then
    .error (.truncated "incomplete header")
  else if readLe32 raw 20 ≠ readLe32 raw 0 ^^^ 0xFFFFFFFF then
    .error .magicMismatch
  else if raw.length ≠ 24 + readLe32 raw 12 then
    .error (.truncated "payload length mismatch")
  else if checksum ((raw.drop 24).take (readLe32 raw 12)) ≠ readLe32 raw 16 then
    .error .checksumMismatch
  else
    .ok ⟨readLe32 raw 0, readLe32 raw 4, readLe32 raw 8,
      (raw.drop 24).take (readLe32 raw 12)⟩

/-- A packet is wellformed when its integer fields fit in 32 bits and its
payload is a byte string of at most `2 ^ 20` bytes. -/
def ADBPacket.wf (p : ADBPacket) : Prop :=
  p.command < 2 ^ 32 ∧ p.arg0 < 2 ^ 32 ∧ p.arg1 < 2 ^ 32 ∧
    p.payload.length ≤ 2 ^ 20 ∧ ∀ b ∈ p.payload, b < 256

/-- Recomposing the four little-endian base-256 digits of a value below
`2 ^ 32` gives the value back. -/
theorem digits_recompose (n : Nat) (h : n < 2 ^ 32) :
    n % 256 + 256 * (n / 256 % 256) + 65536 * (n / 65536 % 256) +
      16777216 * (n / 16777216 % 256) = n := by
  omega

theorem to_bytes_length (p : ADBPacket) :
    p.to_bytes.length = 24 + p.payload.length := by
  simp [ADBPacket.to_bytes, le32]
  omega

theorem to_bytes_drop (p : ADBPacket) : p.to_bytes.drop 24 = p.payload := rfl

theorem to_bytes_read0 (p : ADBPacket) (h : p.command < 2 ^ 32) :
    readLe32 p.to_bytes 0 = p.command := by
  have e : readLe32 p.to_bytes 0 =
      p.command % 256 + 256 * (p.command / 256 % 256) +
        65536 * (p.command / 65536 % 256) +
        16777216 * (p.command / 16777216 % 256) := rfl
  rw [e, digits_recompose _ h]

theorem to_bytes_read4 (p : ADBPacket) (h : p.arg0 < 2 ^ 32) :
    readLe32 p.to_bytes 4 = p.arg0 := by
  have e : readLe32 p.to_bytes 4 =
      p.arg0 % 256 + 256 * (p.arg0 / 256 % 256) +
        65536 * (p.arg0 / 65536 % 256) +
        16777216 * (p.arg0 / 16777216 % 256) := rfl
  rw [e, digits_recompose _ h]

theorem to_bytes_read8 (p : ADBPacket) (h : p.arg1 < 2 ^ 32) :
    readLe32 p.to_bytes 8 = p.arg1 := by
  have e : readLe32 p.to_bytes 8 =
      p.arg1 % 256 + 256 * (p.arg1 / 256 % 256) +
        65536 * (p.arg1 / 65536 % 256) +
        16777216 * (p.arg1 / 16777216 % 256) := rfl
  rw [e, digits_recompose _ h]

theorem to_bytes_read12 (p : ADBPacket) (h : p.payload.length < 2 ^ 32) :
    readLe32 p.to_bytes 12 = p.payload.length := by
  have e : readLe32 p.to_bytes 12 =
      p.payload.length % 256 + 256 * (p.payload.length / 256 % 256) +
        65536 * (p.payload.length / 65536 % 256) +
        16777216 * (p.payload.length / 16777216 % 256) := rfl
  rw [e, digits_recompose _ h]

theorem to_bytes_read16 (p : ADBPacket) :
    readLe32 p.to_bytes 16 = checksum p.payload := by
  have e : readLe32 p.to_bytes 16 =
      checksum p.payload % 256 + 256 * (checksum p.payload / 256 % 256) +
        65536 * (checksum p.payload / 65536 % 256) +
        16777216 * (checksum p.payload / 16777216 % 256) := rfl
  rw [e, digits_recompose]
  exact Nat.mod_lt _ (by norm_num)

theorem to_bytes_read20 (p : ADBPacket) (h : p.command < 2 ^ 32) :
    readLe32 p.to_bytes 20 = p.command ^^^ 0xFFFFFFFF := by
  have hm : p.command ^^^ 0xFFFFFFFF < 2 ^ 32 :=
    Nat.xor_lt_two_pow h (by norm_num)
  have e : readLe32 p.to_bytes 20 =
      p.magic % 256 + 256 * (p.magic / 256 % 256) +
        65536 * (p.magic / 65536 % 256) +
        16777216 * (p.magic / 16777216 % 256) := rfl
  rw [e]
  exact digits_recompose _ hm

end AdbCodec

namespace AdbCodec

/-- C1: for every packet whose integer fields fit in 32 bits and whose
payload is a byte string of at most `2 ^ 20` bytes, decoding the encoding
yields the original packet: `ADBPacket.from_bytes (p.to_bytes) = p`. -/
theorem C1_codec_roundtrip (p : ADBPacket) (hw : p.wf) :
    ADBPacket.from_bytes p.to_bytes = .ok p := by
  obtain ⟨hc, h0, h1, hl, hb⟩ := hw
  have hl32 : p.payload.length < 2 ^ 32 := by
    calc p.payload.length ≤ 2 ^ 20 := hl
    _ < 2 ^ 32 := by norm_num
  rw [ADBPacket.from_bytes, to_bytes_read12 p hl32, to_bytes_read0 p hc,
    to_bytes_read16 p, to_bytes_read20 p hc, to_bytes_length p,
    to_bytes_drop p, List.take_length,
    if_neg (by omega), if_neg (by simp), if_neg (by simp), if_neg (by simp),
    to_bytes_read4 p h0, to_bytes_read8 p h1]

/-- Witness for C1 at the concrete packet
`⟨0x4e584e43, 1, 2, "hi"⟩` (a CNXN packet with two payload bytes). -/
theorem C1_codec_roundtrip_witness :
    (⟨0x4e584e43, 1, 2, [104, 105]⟩ : ADBPacket).wf ∧
      ADBPacket.from_bytes
        (⟨0x4e584e43, 1, 2, [104, 105]⟩ : ADBPacket).to_bytes =
        .ok ⟨0x4e584e43, 1, 2, [104, 105]⟩ :=
  ⟨by simp [ADBPacket.wf], C1_codec_roundtrip _ (by simp [ADBPacket.wf])⟩

/-- Flip bit `k` (0 ≤ k < 8) of the byte at index `i` of a buffer. -/
def flipBit (buf : List Nat) (i k : Nat) : List Nat :=
  buf.set i (buf.getD i 0 ^^^ 2 ^ k)

theorem xor_pow_ne (b k : Nat) : b ^^^ 2 ^ k ≠ b := by
  intro h
  have h2 : (b ^^^ 2 ^ k) ^^^ b = b ^^^ b := congrArg (· ^^^ b) h
  rw [Nat.xor_comm b (2 ^ k), Nat.xor_assoc, Nat.xor_self, Nat.xor_zero] at h2
  exact absurd h2 (Nat.pos_iff_ne_zero.mp (Nat.pos_pow_of_pos k (by norm_num)))

theorem xor_right_cancel {a b m : Nat} (h : a ^^^ m = b ^^^ m) : a = b := by
  have h2 : (a ^^^ m) ^^^ m = (b ^^^ m) ^^^ m := congrArg (· ^^^ m) h
  rwa [Nat.xor_assoc, Nat.xor_self, Nat.xor_zero, Nat.xor_assoc,
    Nat.xor_self, Nat.xor_zero] at h2

theorem getD_set_self (l : List Nat) (i v : Nat) (h : i < l.length) :
    (l.set i v).getD i 0 = v := by
  simp [List.getD_eq_getElem?_getD, List.getElem?_set_self h]

theorem getD_set_ne (l : List Nat) {i t : Nat} (v : Nat) (h : i ≠ t) :
    (l.set i v).getD t 0 = l.getD t 0 := by
  simp [List.getD_eq_getElem?_getD, List.getElem?_set_ne h]

theorem getD_lt_256 (l : List Nat) (h : ∀ b ∈ l, b < 256) (t : Nat) :
    l.getD t 0 < 256 := by
  rw [List.getD_eq_getElem?_getD]
  cases he : l[t]? with
  | none => simp
  | some x => exact h x (List.getElem?_mem he)

theorem to_bytes_bytes_lt (p : ADBPacket) (hb : ∀ b ∈ p.payload, b < 256) :
    ∀ b ∈ p.to_bytes, b < 256 := by
  intro b hmem
  simp only [ADBPacket.to_bytes, le32, List.mem_append, List.mem_cons,
    List.not_mem_nil, or_false] at hmem
  rcases hmem with ((((((h | h | h | h) | (h | h | h | h)) | (h | h | h | h)) |
      (h | h | h | h)) | (h | h | h | h)) | (h | h | h | h)) | h
  all_goals first
    | (subst h; exact Nat.mod_lt _ (by norm_num))
    | exact hb b h

/-- A `readLe32` whose window does not contain the modified index is
unchanged. -/
theorem readLe32_set_outside (buf : List Nat) (i v off : Nat)
    (h : i < off ∨ off + 4 ≤ i) :
    readLe32 (buf.set i v) off = readLe32 buf off := by
  unfold readLe32
  rw [getD_set_ne _ _ (by omega), getD_set_ne _ _ (by omega),
    getD_set_ne _ _ (by omega), getD_set_ne _ _ (by omega)]

/-- Changing one byte of a four-byte little-endian window to a different
value below 256 changes the value read, provided all window bytes are
below 256. -/
theorem readLe32_set_inside (buf : List Nat) (off j v : Nat)
    (hj : j < 4) (hlen : off + j < buf.length)
    (hd : ∀ b ∈ buf, b < 256)
    (hne : v ≠ buf.getD (off + j) 0) :
    readLe32 (buf.set (off + j) v) off ≠ readLe32 buf off := by
  have hb0 := getD_lt_256 buf hd off
  have hb1 := getD_lt_256 buf hd (off + 1)
  have hb2 := getD_lt_256 buf hd (off + 2)
  have hb3 := getD_lt_256 buf hd (off + 3)
  unfold readLe32
  interval_cases j
  · rw [show off + 0 = off from rfl] at hlen hne ⊢
    rw [getD_set_self _ _ _ hlen, getD_set_ne _ _ (by omega),
      getD_set_ne _ _ (by omega), getD_set_ne _ _ (by omega)]
    omega
  · rw [getD_set_self _ _ _ hlen, getD_set_ne _ _ (by omega),
      getD_set_ne _ _ (by omega), getD_set_ne _ _ (by omega)]
    omega
  · rw [getD_set_self _ _ _ hlen, getD_set_ne _ _ (by omega),
      getD_set_ne _ _ (by omega), getD_set_ne _ _ (by omega)]
    omega
  · rw [getD_set_self _ _ _ hlen, getD_set_ne _ _ (by omega),
      getD_set_ne _ _ (by omega), getD_set_ne _ _ (by omega)]
    omega

theorem sum_set_add (l : List Nat) :
    ∀ (j v : Nat), j < l.length →
      (l.set j v).sum + l.getD j 0 = l.sum + v := by
  induction l with
  | nil => intro j v h; simp at h
  | cons x xs ih =>
    intro j v h
    cases j with
    | zero => simp [List.set, List.sum_cons]; omega
    | succ n =>
      simp only [List.set, List.sum_cons, List.getD_cons_succ]
      have := ih n v (by simpa using h)
      omega

theorem sum_le_of_bytes (l : List Nat) (h : ∀ b ∈ l, b < 256) :
    l.sum ≤ 255 * l.length := by
  induction l with
  | nil => simp
  | cons x xs ih =>
    simp only [List.sum_cons, List.length_cons]
    have hx : x < 256 := h x (by simp)
    have hxs := ih (fun b hb => h b (by simp [hb]))
    omega

theorem getD_to_bytes_payload (p : ADBPacket) (i : Nat) (h : 24 ≤ i) :
    p.to_bytes.getD i 0 = p.payload.getD (i - 24) 0 := by
  rw [List.getD_eq_getElem?_getD, List.getD_eq_getElem?_getD,
    ← to_bytes_drop p, List.getElem?_drop]
  congr 2
  omega

/-- Any single-bit flip in the command, length, checksum or magic header
fields or in the payload of a validly encoded packet makes decoding fail
with a magic, length, or checksum error. -/
theorem from_bytes_flip_fails (p : ADBPacket) (hw : p.wf) (i k : Nat)
    (hk : k < 8) (hi : i < p.to_bytes.length) (hpos : i < 4 ∨ 12 ≤ i) :
    ADBPacket.from_bytes (flipBit p.to_bytes i k) = .error .magicMismatch ∨
      ADBPacket.from_bytes (flipBit p.to_bytes i k) =
        .error (.truncated "payload length mismatch") ∨
      ADBPacket.from_bytes (flipBit p.to_bytes i k) =
        .error .checksumMismatch := by
  obtain ⟨hc, h0, h1, hl, hb⟩ := hw
  have hl32 : p.payload.length < 2 ^ 32 := by
    calc p.payload.length ≤ 2 ^ 20 := hl
    _ < 2 ^ 32 := by norm_num
  have hbytes : ∀ b ∈ p.to_bytes, b < 256 := to_bytes_bytes_lt p hb
  have hvne : p.to_bytes.getD i 0 ^^^ 2 ^ k ≠ p.to_bytes.getD i 0 :=
    xor_pow_ne _ _
  have hlenflip : (flipBit p.to_bytes i k).length = 24 + p.payload.length := by
    simp [flipBit, to_bytes_length]
  simp only [flipBit] at hlenflip ⊢
  rw [ADBPacket.from_bytes]
  rw [if_neg (by omega)]
  rcases hpos with hsmall | hbig
  · -- flip inside the command field: the magic check fails
    left
    rw [if_pos]
    have e20 : readLe32 (p.to_bytes.set i (p.to_bytes.getD i 0 ^^^ 2 ^ k)) 20 =
        p.command ^^^ 0xFFFFFFFF := by
      rw [readLe32_set_outside _ _ _ _ (by omega), to_bytes_read20 p hc]
    have e0 : readLe32 (p.to_bytes.set i (p.to_bytes.getD i 0 ^^^ 2 ^ k)) 0 ≠
        p.command := by
      have := readLe32_set_inside p.to_bytes 0 i
        (p.to_bytes.getD i 0 ^^^ 2 ^ k) hsmall (by omega) hbytes
        (by simpa using hvne)
      simp only [Nat.zero_add] at this
      rw [to_bytes_read0 p hc] at this
      simpa using this
    rw [e20]
    intro hcontra
    exact e0 (xor_right_cancel hcontra.symm)
  · rcases Nat.lt_or_ge i 16 with h16 | h16
    · -- flip inside the length field: the length check fails
      right; left
      have e20 : readLe32 (p.to_bytes.set i (p.to_bytes.getD i 0 ^^^ 2 ^ k)) 20 =
          p.command ^^^ 0xFFFFFFFF := by
        rw [readLe32_set_outside _ _ _ _ (by omega), to_bytes_read20 p hc]
      have e0 : readLe32 (p.to_bytes.set i (p.to_bytes.getD i 0 ^^^ 2 ^ k)) 0 =
          p.command := by
        rw [readLe32_set_outside _ _ _ _ (by omega), to_bytes_read0 p hc]
      have e12 : readLe32 (p.to_bytes.set i (p.to_bytes.getD i 0 ^^^ 2 ^ k)) 12 ≠
          p.payload.length := by
        have := readLe32_set_inside p.to_bytes 12 (i - 12)
          (p.to_bytes.getD i 0 ^^^ 2 ^ k) (by omega)
          (by omega) hbytes (by rw [show 12 + (i - 12) = i by omega]; exact hvne)
        rw [show 12 + (i - 12) = i by omega] at this
        rw [to_bytes_read12 p hl32] at this
        exact this
      rw [if_neg (by rw [e20, e0]; simp), if_pos (by omega)]
    · rcases Nat.lt_or_ge i 20 with h20 | h20
      · -- flip inside the checksum field: the checksum check fails
        right; right
        have e20 : readLe32 (p.to_bytes.set i (p.to_bytes.getD i 0 ^^^ 2 ^ k))
            20 = p.command ^^^ 0xFFFFFFFF := by
          rw [readLe32_set_outside _ _ _ _ (by omega), to_bytes_read20 p hc]
        have e0 : readLe32 (p.to_bytes.set i (p.to_bytes.getD i 0 ^^^ 2 ^ k))
            0 = p.command := by
          rw [readLe32_set_outside _ _ _ _ (by omega), to_bytes_read0 p hc]
        have e12 : readLe32 (p.to_bytes.set i (p.to_bytes.getD i 0 ^^^ 2 ^ k))
            12 = p.payload.length := by
          rw [readLe32_set_outside _ _ _ _ (by omega), to_bytes_read12 p hl32]
        have e16 : readLe32 (p.to_bytes.set i (p.to_bytes.getD i 0 ^^^ 2 ^ k))
            16 ≠ checksum p.payload := by
          have := readLe32_set_inside p.to_bytes 16 (i - 16)
            (p.to_bytes.getD i 0 ^^^ 2 ^ k) (by omega)
            (by omega) hbytes (by rw [show 16 + (i - 16) = i by omega]; exact hvne)
          rw [show 16 + (i - 16) = i by omega] at this
          rw [to_bytes_read16 p] at this
          exact this
        have edrop : (p.to_bytes.set i (p.to_bytes.getD i 0 ^^^ 2 ^ k)).drop 24 =
            p.payload := by
          rw [List.drop_set_of_lt _ _ (by omega), to_bytes_drop]
        rw [if_neg (by rw [e20, e0]; simp), if_neg (by rw [e12]; omega),
          if_pos (by rw [e12, edrop, List.take_length]; exact e16.symm)]
      · rcases Nat.lt_or_ge i 24 with h24 | h24
        · -- flip inside the magic field: the magic check fails
          left
          have e20 : readLe32 (p.to_bytes.set i (p.to_bytes.getD i 0 ^^^ 2 ^ k))
              20 ≠ p.command ^^^ 0xFFFFFFFF := by
            have := readLe32_set_inside p.to_bytes 20 (i - 20)
              (p.to_bytes.getD i 0 ^^^ 2 ^ k) (by omega)
              (by omega) hbytes
              (by rw [show 20 + (i - 20) = i by omega]; exact hvne)
            rw [show 20 + (i - 20) = i by omega] at this
            rw [to_bytes_read20 p hc] at this
            exact this
          have e0 : readLe32 (p.to_bytes.set i (p.to_bytes.getD i 0 ^^^ 2 ^ k))
              0 = p.command := by
            rw [readLe32_set_outside _ _ _ _ (by omega), to_bytes_read0 p hc]
          rw [if_pos (by rw [e0]; exact e20)]
        · -- flip inside the payload: the checksum check fails
          right; right
          have e20 : readLe32 (p.to_bytes.set i (p.to_bytes.getD i 0 ^^^ 2 ^ k))
              20 = p.command ^^^ 0xFFFFFFFF := by
            rw [readLe32_set_outside _ _ _ _ (by omega), to_bytes_read20 p hc]
          have e0 : readLe32 (p.to_bytes.set i (p.to_bytes.getD i 0 ^^^ 2 ^ k))
              0 = p.command := by
            rw [readLe32_set_outside _ _ _ _ (by omega), to_bytes_read0 p hc]
          have e12 : readLe32 (p.to_bytes.set i (p.to_bytes.getD i 0 ^^^ 2 ^ k))
              12 = p.payload.length := by
            rw [readLe32_set_outside _ _ _ _ (by omega), to_bytes_read12 p hl32]
          have hj : i - 24 < p.payload.length := by
            rw [to_bytes_length] at hi; omega
          have edrop : (p.to_bytes.set i (p.to_bytes.getD i 0 ^^^ 2 ^ k)).drop 24 =
              p.payload.set (i - 24) (p.to_bytes.getD i 0 ^^^ 2 ^ k) := by
            rw [List.drop_set, if_neg (by omega), to_bytes_drop]
          have etake : (p.payload.set (i - 24)
              (p.to_bytes.getD i 0 ^^^ 2 ^ k)).take p.payload.length =
              p.payload.set (i - 24) (p.to_bytes.getD i 0 ^^^ 2 ^ k) := by
            have hle : (p.payload.set (i - 24)
                (p.to_bytes.getD i 0 ^^^ 2 ^ k)).length = p.payload.length := by
              simp
            rw [← hle, List.take_length]
          have hsum := sum_set_add p.payload (i - 24)
            (p.to_bytes.getD i 0 ^^^ 2 ^ k) hj
          have hgd : p.to_bytes.getD i 0 = p.payload.getD (i - 24) 0 :=
            getD_to_bytes_payload p i h24
          have hsumle : p.payload.sum ≤ 255 * p.payload.length :=
            sum_le_of_bytes p.payload hb
          have hvlt : p.to_bytes.getD i 0 ^^^ 2 ^ k < 256 := by
            have hx : p.to_bytes.getD i 0 < 2 ^ 8 := by
              simpa using getD_lt_256 p.to_bytes hbytes i
            have hy : 2 ^ k < 2 ^ 8 := Nat.pow_lt_pow_right (by norm_num) hk
            simpa using Nat.xor_lt_two_pow hx hy
          have e16 : readLe32 (p.to_bytes.set i (p.to_bytes.getD i 0 ^^^ 2 ^ k))
              16 = checksum p.payload := by
            rw [readLe32_set_outside _ _ _ _ (by omega), to_bytes_read16 p]
          have hck : checksum (p.payload.set (i - 24)
              (p.to_bytes.getD i 0 ^^^ 2 ^ k)) ≠ checksum p.payload := by
            unfold checksum
            have hgdlt : p.payload.getD (i - 24) 0 < 256 :=
              getD_lt_256 p.payload hb _
            rw [hgd] at hsum hvlt hvne ⊢
            rw [Nat.mod_eq_of_lt (by omega), Nat.mod_eq_of_lt (by omega)]
            omega
          rw [if_neg (by rw [e20, e0]; simp), if_neg (by rw [e12]; omega),
            if_pos (by rw [e12, edrop, etake, e16]; exact hck)]

/-- A single-bit flip inside the `arg0`/`arg1` region (bytes 4–11) of a
validly encoded packet decodes successfully: those fields are covered by
no integrity check. -/
theorem from_bytes_flip_args_ok (p : ADBPacket) (hw : p.wf) (i k : Nat)
    (h4 : 4 ≤ i) (h12 : i < 12) :
    ADBPacket.from_bytes (flipBit p.to_bytes i k) =
      .ok ⟨p.command, readLe32 (flipBit p.to_bytes i k) 4,
        readLe32 (flipBit p.to_bytes i k) 8, p.payload⟩ := by
  obtain ⟨hc, h0, h1, hl, hb⟩ := hw
  have hl32 : p.payload.length < 2 ^ 32 := by
    calc p.payload.length ≤ 2 ^ 20 := hl
    _ < 2 ^ 32 := by norm_num
  simp only [flipBit]
  have e20 : readLe32 (p.to_bytes.set i (p.to_bytes.getD i 0 ^^^ 2 ^ k)) 20 =
      p.command ^^^ 0xFFFFFFFF := by
    rw [readLe32_set_outside _ _ _ _ (by omega), to_bytes_read20 p hc]
  have e0 : readLe32 (p.to_bytes.set i (p.to_bytes.getD i 0 ^^^ 2 ^ k)) 0 =
      p.command := by
    rw [readLe32_set_outside _ _ _ _ (by omega), to_bytes_read0 p hc]
  have e12 : readLe32 (p.to_bytes.set i (p.to_bytes.getD i 0 ^^^ 2 ^ k)) 12 =
      p.payload.length := by
    rw [readLe32_set_outside _ _ _ _ (by omega), to_bytes_read12 p hl32]
  have e16 : readLe32 (p.to_bytes.set i (p.to_bytes.getD i 0 ^^^ 2 ^ k)) 16 =
      checksum p.payload := by
    rw [readLe32_set_outside _ _ _ _ (by omega), to_bytes_read16 p]
  have edrop : (p.to_bytes.set i (p.to_bytes.getD i 0 ^^^ 2 ^ k)).drop 24 =
      p.payload := by
    rw [List.drop_set_of_lt _ _ (by omega), to_bytes_drop]
  have hlenflip : (p.to_bytes.set i (p.to_bytes.getD i 0 ^^^ 2 ^ k)).length =
      24 + p.payload.length := by
    simp [to_bytes_length]
  rw [ADBPacket.from_bytes, if_neg (by omega),
    if_neg (by rw [e20, e0]; simp), if_neg (by rw [e12, hlenflip]; simp),
    if_neg (by rw [e12, edrop, List.take_length]; exact not_ne_iff.mpr e16.symm),
    e0, e12, edrop, List.take_length]

/-- C2 (amended): for a validly encoded packet, a single-bit flip is
caught by the magic, length, or checksum check exactly when it falls
outside the `arg0`/`arg1` fields (bytes 4–11); flips inside those two
fields decode successfully. -/
theorem C2_tamper_detect (p : ADBPacket) (hw : p.wf) (i k : Nat)
    (hk : k < 8) (hi : i < p.to_bytes.length) :
    (ADBPacket.from_bytes (flipBit p.to_bytes i k) = .error .magicMismatch ∨
      ADBPacket.from_bytes (flipBit p.to_bytes i k) =
        .error (.truncated "payload length mismatch") ∨
      ADBPacket.from_bytes (flipBit p.to_bytes i k) =
        .error .checksumMismatch) ↔ (i < 4 ∨ 12 ≤ i) := by
  constructor
  · intro hfail
    by_contra hpos
    push_neg at hpos
    rw [from_bytes_flip_args_ok p hw i k hpos.1 hpos.2] at hfail
    simp at hfail
  · exact from_bytes_flip_fails p hw i k hk hi

/-- C2 counterexample: the claim as stated is false — flipping bit 0 of
byte 4 (the low byte of `arg0`) of a validly encoded CNXN packet is not
detected; decoding succeeds and returns a packet with `arg0 = 1`. -/
theorem C2_counterexample :
    ADBPacket.from_bytes
        (flipBit (⟨0x4e584e43, 0, 0, []⟩ : ADBPacket).to_bytes 4 0) =
      .ok ⟨0x4e584e43, 1, 0, []⟩ := by
  rfl

/-- Witness for C2 at the concrete CNXN packet, flipping bit 0 of byte 0. -/
theorem C2_tamper_detect_witness :
    (⟨0x4e584e43, 0, 0, []⟩ : ADBPacket).wf ∧ 0 < 8 ∧
      0 < (⟨0x4e584e43, 0, 0, []⟩ : ADBPacket).to_bytes.length ∧
      ((ADBPacket.from_bytes
          (flipBit (⟨0x4e584e43, 0, 0, []⟩ : ADBPacket).to_bytes 0 0) =
            .error .magicMismatch ∨
        ADBPacket.from_bytes
          (flipBit (⟨0x4e584e43, 0, 0, []⟩ : ADBPacket).to_bytes 0 0) =
            .error (.truncated "payload length mismatch") ∨
        ADBPacket.from_bytes
          (flipBit (⟨0x4e584e43, 0, 0, []⟩ : ADBPacket).to_bytes 0 0) =
            .error .checksumMismatch) ↔ (0 < 4 ∨ 12 ≤ 0)) :=
  ⟨by simp [ADBPacket.wf], by norm_num, by decide,
    C2_tamper_detect _ (by simp [ADBPacket.wf]) 0 0 (by norm_num) (by decide)⟩

end AdbCodec

namespace AdbFs

/-- `FileEntry` from `adb_server/filesystem.py`; the path is kept in the
entry (as in the source) and is the normalized component list. -/
structure FileEntry where
  path : List String
  node_type : String
  permissions : Nat
  owner : String
  group : String
  content : List Nat
  link_target : Option String
deriving DecidableEq, Repr

/-- Split a character list on a separator character (the behaviour of
`str.split(sep)` / `String.splitOn` for a one-character separator). -/
def splitCharAux (sep : Char) : List Char → List Char → List String
  | [], acc => [String.mk acc.reverse]
  | c :: cs, acc =>
    if c = sep then String.mk acc.reverse :: splitCharAux sep cs []
    else splitCharAux sep cs (c :: acc)

/-- Split a string on a separator character. -/
def splitChar (sep : Char) (s : String) : List String :=
  splitCharAux sep s.toList []

/-- `MockFileSystem._normalize` with the working directory fixed at the
root (the sync service always passes `cwd = None`): split the path string
on `/`, drop empty and `.` segments, and resolve `..` against the prefix
stack.  This models `PurePosixPath(path).parts` for ordinary paths (the
POSIX double-slash-root corner case of `PurePosixPath` is not modelled). -/
def normalize (path : String) : List String :=
  ((splitChar '/' path).filter (fun s => s != "" && s != ".")).foldl
    (fun acc part => if part = ".." then acc.dropLast else acc ++ [part]) []

/-- The `entries` dictionary of `MockFileSystem`, keyed by normalized
path.  The `children` map only serves `LIST`, which no claim touches, and
is not modelled. -/
def MockFS := List String → Option FileEntry

/-- The root directory entry created by `MockFileSystem.__init__`. -/
def rootEntry : FileEntry :=
  ⟨[], "dir", 0o755, "root", "root", [], none⟩

/-- A fresh `MockFileSystem`: only the root directory exists. -/
def initFS : MockFS := fun p => if p = [] then some rootEntry else none

/-- A filesystem is wellformed when every entry records the key it is
stored under, an invariant `MockFileSystem` maintains. -/
def FsWF (fs : MockFS) : Prop :=
  ∀ p e, fs p = some e → e.path = p

/-- `MockFileSystem._resolve_symlink` with `follow = True`.  The source
recurses without a bound (limited only by the interpreter stack); the
model uses explicit fuel, which is irrelevant for the non-symlink entries
the claims are about. -/
def resolveSymlink (fs : MockFS) : Nat → FileEntry → Except String FileEntry
  | 0, _ => .error "symlink resolution depth exceeded"
  | fuel + 1, e =>
    if e.node_type = "symlink" then
      match e.link_target with
      | none => .ok e
      | some t =>
        match fs (normalize t) with
        | none => .error "Dangling symlink"
        | some e2 => resolveSymlink fs fuel e2
    else .ok e

/-- `MockFileSystem.get_entry` applied to an already-normalized key
(normalizing a normalized path is the identity). -/
def getEntryAt (fs : MockFS) (n : List String) : Except String FileEntry :=
  match fs n with
  | none => .error "Path not found"
  | some e => resolveSymlink fs 64 e

/-- `MockFileSystem.get_entry` with `follow = True` and `cwd = None`. -/
def get_entry (fs : MockFS) (path : String) : Except String FileEntry :=
  getEntryAt fs (normalize path)

/-- `MockFileSystem.read_file`. -/
def read_file (fs : MockFS) (path : String) : Except String (List Nat) :=
  match get_entry fs path with
  | .error msg => .error msg
  | .ok e =>
    if e.node_type ≠ "file" then .error "Not a file"
    else .ok e.content

/-- `MockFileSystem._ensure_directory`: walk up to the root, check every
existing prefix is a directory, create the missing ones. -/
def ensureDirectory (fs : MockFS) (p : List String) : Except String MockFS :=
  if h : p = [] then .ok fs
  else
    match fs p with
    | some e =>
      if e.node_type ≠ "dir" then .error "Path exists and is not a directory"
      else .ok fs
    | none =>
      match ensureDirectory fs p.dropLast with
      | .error msg => .error msg
      | .ok fs2 => .ok (fun q => if q = p then
          some ⟨p, "dir", 0o755, "root", "root", [], none⟩ else fs2 q)
termination_by p.length
decreasing_by
  have : p.length ≠ 0 := by
    intro hz
    exact h (List.eq_nil_of_length_eq_zero hz)
  rw [List.length_dropLast]
  omega

/-- `MockFileSystem.write_file` with the arguments the sync stream uses
(`cwd = None`, `append = False`, `owner = group = "shell"`).  An existing
entry is first resolved through symlinks (as `get_entry` does in the
source) and the resolved entry is updated in place; otherwise the parent
directories are created and a fresh file entry is added. -/
def write_file (fs : MockFS) (path : String) (data : List Nat) (mode : Nat) :
    Except String MockFS :=
  let n := normalize path
  match fs n with
  | some _ =>
    match getEntryAt fs n with
    | .error msg => .error msg
    | .ok e =>
      if e.node_type ≠ "file" then .error "Cannot write to non-file"
      else .ok (fun q => if q = e.path then
        some { e with
          content := data
          permissions := mode
          owner := "shell"
          group := "shell" } else fs q)
  | none =>
    match ensureDirectory fs n.dropLast with
    | .error msg => .error msg
    | .ok fs2 =>
      if (fs2 n).isSome then .error "Path already exists"
      else .ok (fun q => if q = n then
        some ⟨n, "file", mode, "shell", "shell", data, none⟩ else fs2 q)

end AdbFs

namespace AdbSync

open AdbFs

/-- Inbound sync sub-messages; payloads the source decodes as UTF-8
(`STAT`, `SEND`, `RECV` paths) are modelled as the decoded strings, the
`DATA` payload stays a byte string and the `DONE` payload (an mtime the
source ignores) is kept as bytes. -/
inductive SyncMsg where
  | stat (path : String)
  | send (spec : String)
  | data (payload : List Nat)
  | done (payload : List Nat)
  | recv (path : String)
  | quit
deriving DecidableEq, Repr

/-- Outbound sync sub-messages, one constructor per `_send_chunk` /
`_send_fail` shape in the source. -/
inductive SyncReply where
  | statR (mode size mtime : Nat)
  | dentR (mode size mtime : Nat) (name : String)
  | dataR (payload : List Nat)
  | doneR
  | okayR
  | failR (msg : String)
deriving DecidableEq, Repr

/-- The mutable state of a `SyncStream`: the backend filesystem plus the
in-progress upload (`_current_path`, `_current_mode`, `_current_data`)
and the closed flag. -/
structure SyncState where
  fs : MockFS
  current_path : Option String
  current_mode : Nat
  current_data : List Nat
  closed : Bool

/-- A freshly opened sync stream over backend filesystem `fs`:
no upload in progress, default mode `0o664`. -/
def initSyncState (fs : MockFS) : SyncState :=
  ⟨fs, none, 0o664, [], false⟩

/-- Python truthiness of `self._current_path` (`None` and `""` are both
falsy, and the source tests `if not self._current_path`). -/
def pathFalsy : Option String → Bool
  | none => true
  | some p => p == ""

/-- `SyncStream._with_type_bits`. -/
def withTypeBits (e : FileEntry) : Nat :=
  if e.node_type = "dir" then e.permissions ||| 0o040000
  else if e.node_type = "symlink" then e.permissions ||| 0o120000
  else e.permissions ||| 0o100000

/-- Split a character list at its last comma: `none` when there is no
comma, otherwise the text before and after it. -/
def rsplitCommaAux : List Char → Option (List Char × List Char)
  | [] => none
  | c :: cs =>
    match rsplitCommaAux cs with
    | some (b, a) => some (c :: b, a)
    | none => if c = ',' then some ([], cs) else none

/-- `spec.rsplit(",", 1)` guarded by the `"," in spec` test of
`_handle_send`: `none` when the spec holds no comma, otherwise the text
before and after the last comma. -/
def rsplitComma (s : String) : Option (String × String) :=
  match rsplitCommaAux s.toList with
  | none => none
  | some (b, a) => some (String.mk b, String.mk a)

/-- `int(mode_text, 8)` on a plain octal digit string; anything else is
`none`, modelling `ValueError` (the sign/whitespace/`0o` forms Python
also accepts never occur in sync SEND specs). -/
def parseOctal (s : String) : Option Nat :=
  if s.length = 0 then none
  else if s.toList.all (fun c => 48 ≤ c.toNat && c.toNat ≤ 55) then
    some (s.toList.foldl (fun acc c => acc * 8 + (c.toNat - 48)) 0)
  else none

/-- `SyncStream._handle_stat`: reply `STAT{mode,size,0}` from the entry,
all-zero on any filesystem error. -/
def handleStat (st : SyncState) (path : String) : SyncState × List SyncReply :=
  match get_entry st.fs path with
  | .ok e =>
    (st, [.statR (withTypeBits e)
      (if e.node_type = "file" then e.content.length else 0) 0])
  | .error _ => (st, [.statR 0 0 0])

/-- `SyncStream._handle_send`: FAIL on a comma-less spec, otherwise
record mode (defaulting to `0o664` on a bad octal string), path, and an
empty accumulation buffer. -/
def handleSend (st : SyncState) (spec : String) : SyncState × List SyncReply :=
  match rsplitComma spec with
  | none => (st, [.failR "Malformed SEND request"])
  | some (path, modeText) =>
    ({ st with
      current_mode := (parseOctal modeText).getD 0o664
      current_path := some path
      current_data := [] }, [])

/-- `SyncStream._handle_data`: FAIL without an active SEND, otherwise
append to the buffer. -/
def handleData (st : SyncState) (payload : List Nat) :
    SyncState × List SyncReply :=
  if pathFalsy st.current_path then (st, [.failR "DATA without SEND"])
  else ({ st with current_data := st.current_data ++ payload }, [])

/-- `SyncStream._handle_done`: FAIL without an active SEND; otherwise
commit the buffer with the captured mode (OKAY on success, FAIL on a
filesystem error) and, in either case, reset path, buffer and mode. -/
def handleDone (st : SyncState) : SyncState × List SyncReply :=
  if pathFalsy st.current_path then (st, [.failR "DONE without SEND"])
  else
    match write_file st.fs (st.current_path.getD "") st.current_data
        st.current_mode with
    | .ok fs2 =>
      ({ st with
        fs := fs2
        current_path := none
        current_data := []
        current_mode := 0o664 }, [.okayR])
    | .error msg =>
      ({ st with
        current_path := none
        current_data := []
        current_mode := 0o664 }, [.failR msg])

/-- The `while offset < len(data)` loop of `_handle_recv`: successive
chunks of at most `CHUNK_SIZE = 65536` bytes. -/
def recvChunks : List Nat → List (List Nat)
  | [] => []
  | x :: xs => ((x :: xs).take 65536) :: recvChunks ((x :: xs).drop 65536)
termination_by l => l.length
decreasing_by
  simp only [List.length_drop, List.length_cons]
  omega

/-- `SyncStream._handle_recv`: FAIL when the file cannot be read,
otherwise the chunks as DATA sub-messages followed by one DONE. -/
def handleRecv (st : SyncState) (path : String) : SyncState × List SyncReply :=
  match read_file st.fs path with
  | .error msg => (st, [.failR msg])
  | .ok data => (st, (recvChunks data).map .dataR ++ [.doneR])

/-- `SyncStream._dispatch` (LIST, which no claim touches, is omitted). -/
def dispatch (st : SyncState) (m : SyncMsg) : SyncState × List SyncReply :=
  match m with
  | .stat path => handleStat st path
  | .send spec => handleSend st spec
  | .data payload => handleData st payload
  | .done _ => handleDone st
  | .recv path => handleRecv st path
  | .quit => ({ st with closed := true }, [])

/-- Process a sequence of sync sub-messages, concatenating the replies
in order. -/
def runMsgs (st : SyncState) (ms : List SyncMsg) : SyncState × List SyncReply :=
  ms.foldl (fun acc m =>
    ((dispatch acc.1 m).1, acc.2 ++ (dispatch acc.1 m).2)) (st, [])

theorem recvChunks_flatten (l : List Nat) : (recvChunks l).flatten = l := by
  induction l using recvChunks.induct with
  | case1 => rw [recvChunks]; rfl
  | case2 x xs ih =>
    rw [recvChunks]
    simp only [List.flatten_cons, ih, List.take_append_drop]

theorem recvChunks_length (l : List Nat) :
    (recvChunks l).length = (l.length + 65535) / 65536 := by
  induction l using recvChunks.induct with
  | case1 => rw [recvChunks]; rfl
  | case2 x xs ih =>
    rw [recvChunks]
    simp only [List.length_cons, ih, List.length_drop]
    omega

theorem recvChunks_sizes (l : List Nat) :
    ∀ c ∈ recvChunks l, c.length ≤ 65536 := by
  induction l using recvChunks.induct with
  | case1 => rw [recvChunks]; intro c hc; simp at hc
  | case2 x xs ih =>
    rw [recvChunks]
    intro c hc
    rcases List.mem_cons.mp hc with h | h
    · subst h; exact List.length_take_le _ _
    · exact ih c h

/-- Reading a path whose entry is a regular file yields its content. -/
theorem read_file_file (fs : MockFS) (path : String) (e : FileEntry)
    (hentry : fs (normalize path) = some e) (hfile : e.node_type = "file") :
    read_file fs path = .ok e.content := by
  rw [read_file, get_entry, getEntryAt, hentry]
  simp [resolveSymlink, hfile]

/-- C4: a RECV for an existing regular file of content `e.content` makes
the sync stream emit exactly `⌈size / 65536⌉` DATA sub-messages, each of
at most 65536 bytes, whose concatenation is the file contents, followed
by exactly one DONE and no FAIL. -/
theorem C4_recv_chunking (st : SyncState) (path : String) (e : FileEntry)
    (hentry : st.fs (normalize path) = some e) (hfile : e.node_type = "file") :
    dispatch st (.recv path) =
      (st, (recvChunks e.content).map SyncReply.dataR ++ [SyncReply.doneR]) ∧
    (recvChunks e.content).length = (e.content.length + 65535) / 65536 ∧
    (∀ c ∈ recvChunks e.content, c.length ≤ 65536) ∧
    (recvChunks e.content).flatten = e.content ∧
    (∀ m, SyncReply.failR m ∉
      (recvChunks e.content).map SyncReply.dataR ++ [SyncReply.doneR]) ∧
    ((recvChunks e.content).map SyncReply.dataR ++
      [SyncReply.doneR]).count SyncReply.doneR = 1 := by
  have hread : read_file st.fs path = .ok e.content :=
    read_file_file st.fs path e hentry hfile
  refine ⟨?_, recvChunks_length _, recvChunks_sizes _, recvChunks_flatten _,
    ?_, ?_⟩
  · simp [dispatch, handleRecv, hread]
  · intro m
    simp
  · rw [List.count_append]
    have h0 : ((recvChunks e.content).map SyncReply.dataR).count
        SyncReply.doneR = 0 := by
      rw [List.count_eq_zero]
      simp
    rw [h0]
    rfl

/-- A one-file filesystem used as a concrete witness input: a regular
file `/f` with one byte of content. -/
def oneFileFS : MockFS := fun p =>
  if p = ["f"] then some ⟨["f"], "file", 0o644, "root", "root", [7], none⟩
  else initFS p

/-- Witness for C4: a one-byte file at `/f` yields one DATA and one
DONE. -/
theorem C4_recv_chunking_witness :
    (initSyncState oneFileFS).fs (normalize "/f") =
        some ⟨["f"], "file", 0o644, "root", "root", [7], none⟩ ∧
      (⟨["f"], "file", 0o644, "root", "root", [7], none⟩ :
          FileEntry).node_type = "file" ∧
      dispatch (initSyncState oneFileFS) (.recv "/f") =
        (initSyncState oneFileFS,
          (recvChunks [7]).map SyncReply.dataR ++ [SyncReply.doneR]) := by
  have h1 : (initSyncState oneFileFS).fs (normalize "/f") =
      some ⟨["f"], "file", 0o644, "root", "root", [7], none⟩ := by
    rfl
  exact ⟨h1, rfl,
    (C4_recv_chunking (initSyncState oneFileFS) "/f"
      ⟨["f"], "file", 0o644, "root", "root", [7], none⟩ h1 rfl).1⟩

/-- C8: a STAT for a path with no filesystem entry is answered with a
STAT reply whose mode, size and mtime are all zero; moreover a STAT is
always answered with exactly one STAT sub-message, never FAIL. -/
theorem C8_stat_missing (st : SyncState) (path : String)
    (hmiss : st.fs (normalize path) = none) :
    dispatch st (.stat path) = (st, [.statR 0 0 0]) ∧
      ∀ (st2 : SyncState) (p2 : String), ∃ m s t,
        dispatch st2 (.stat p2) = (st2, [.statR m s t]) := by
  constructor
  · simp [dispatch, handleStat, get_entry, getEntryAt, hmiss]
  · intro st2 p2
    cases hge : get_entry st2.fs p2 with
    | ok e =>
      exact ⟨withTypeBits e,
        (if e.node_type = "file" then e.content.length else 0), 0,
        by simp [dispatch, handleStat, hge]⟩
    | error msg =>
      exact ⟨0, 0, 0, by simp [dispatch, handleStat, hge]⟩

/-- Witness for C8 at a fresh filesystem and the path `/nope`. -/
theorem C8_stat_missing_witness :
    (initSyncState initFS).fs (normalize "/nope") = none ∧
      dispatch (initSyncState initFS) (.stat "/nope") =
        (initSyncState initFS, [.statR 0 0 0]) := by
  have h1 : (initSyncState initFS).fs (normalize "/nope") = none := by rfl
  exact ⟨h1, (C8_stat_missing (initSyncState initFS) "/nope" h1).1⟩

/-- C10: after a DONE processed with a SEND in progress — whether the
backend write succeeds (OKAY) or fails (FAIL) — the transfer state is
fully reset: no path, empty buffer, mode back to `0o664`; a DATA arriving
next is answered with FAIL and leaves the state unchanged. -/
theorem C10_done_resets (st : SyncState) (p : String) (payload X : List Nat)
    (hp : st.current_path = some p) (hne : p ≠ "") :
    (dispatch st (.done payload)).1.current_path = none ∧
    (dispatch st (.done payload)).1.current_data = [] ∧
    (dispatch st (.done payload)).1.current_mode = 0o664 ∧
    ((dispatch st (.done payload)).2 = [SyncReply.okayR] ∨
      ∃ m, (dispatch st (.done payload)).2 = [SyncReply.failR m]) ∧
    dispatch (dispatch st (.done payload)).1 (.data X) =
      ((dispatch st (.done payload)).1,
        [SyncReply.failR "DATA without SEND"]) := by
  have hpf : pathFalsy st.current_path = false := by
    rw [hp]
    simpa [pathFalsy] using hne
  simp only [dispatch, handleDone, hpf, Bool.false_eq_true, if_false]
  cases hw : write_file st.fs (st.current_path.getD "") st.current_data
      st.current_mode with
  | ok fs2 =>
    refine ⟨rfl, rfl, rfl, .inl rfl, ?_⟩
    simp [handleData, pathFalsy]
  | error msg =>
    refine ⟨rfl, rfl, rfl, .inr ⟨msg, rfl⟩, ?_⟩
    simp [handleData, pathFalsy]

/-- Witness for C10: a state mid-upload to `/p` with two buffered bytes. -/
theorem C10_done_resets_witness :
    (⟨initFS, some "/p", 420, [1, 2], false⟩ :
        SyncState).current_path = some "/p" ∧ "/p" ≠ "" ∧
      (dispatch (⟨initFS, some "/p", 420, [1, 2], false⟩ : SyncState)
          (.done [])).1.current_path = none :=
  ⟨rfl, by decide,
    (C10_done_resets ⟨initFS, some "/p", 420, [1, 2], false⟩ "/p" [] []
      rfl (by decide)).1⟩

/-- Writing `/p` on a filesystem where `/p` is absent or a regular file
succeeds and leaves a regular file entry with the written content and
mode at `["p"]`. -/
theorem write_file_slash_p (fs : MockFS) (hwf : FsWF fs)
    (data : List Nat) (mode : Nat)
    (hp : fs ["p"] = none ∨ ∃ e, fs ["p"] = some e ∧ e.node_type = "file") :
    ∃ fs2 e2, write_file fs "/p" data mode = .ok fs2 ∧
      fs2 ["p"] = some e2 ∧ e2.node_type = "file" ∧
      e2.content = data ∧ e2.permissions = mode := by
  rcases hp with hnone | ⟨e, he, hfile⟩
  · refine ⟨fun q => if q = ["p"] then
        some ⟨["p"], "file", mode, "shell", "shell", data, none⟩ else fs q,
      ⟨["p"], "file", mode, "shell", "shell", data, none⟩,
      ?_, by simp, rfl, rfl, rfl⟩
    have hens : ensureDirectory fs ([] : List String) = .ok fs := by
      rw [ensureDirectory]
      simp
    rw [write_file]
    simp only [show normalize "/p" = ["p"] from rfl, hnone]
    simp only [show (["p"] : List String).dropLast = [] from rfl, hens, hnone]
    simp
  · have hpath : e.path = ["p"] := hwf _ _ he
    refine ⟨fun q => if q = e.path then
        some { e with
          content := data
          permissions := mode
          owner := "shell"
          group := "shell" } else fs q,
      { e with
        content := data
        permissions := mode
        owner := "shell"
        group := "shell" },
      ?_, by simp [hpath], hfile, rfl, rfl⟩
    rw [write_file]
    simp only [show normalize "/p" = ["p"] from rfl, he, getEntryAt]
    simp [resolveSymlink, hfile]

/-- C3: starting a fresh sync stream, SEND(`"/p,0644"`), DATA(X), DATA(Y),
DONE commits `/p` with content `X ++ Y` and permission bits `0o644`, and
the response to the whole sequence is exactly one OKAY sub-message. -/
theorem C3_sync_send_data_done (fs : MockFS) (X Y : List Nat) (hwf : FsWF fs)
    (hp : fs ["p"] = none ∨ ∃ e, fs ["p"] = some e ∧ e.node_type = "file") :
    (runMsgs (initSyncState fs)
      [.send "/p,0644", .data X, .data Y, .done []]).2 = [SyncReply.okayR] ∧
    read_file (runMsgs (initSyncState fs)
      [.send "/p,0644", .data X, .data Y, .done []]).1.fs "/p" =
      .ok (X ++ Y) ∧
    ∃ e2, (runMsgs (initSyncState fs)
        [.send "/p,0644", .data X, .data Y, .done []]).1.fs ["p"] = some e2 ∧
      e2.node_type = "file" ∧ e2.content = X ++ Y ∧
      e2.permissions = 0o644 := by
  obtain ⟨fs2, e2, hw, he2, hf2, hc2, hm2⟩ :=
    write_file_slash_p fs hwf (X ++ Y) 0o644 hp
  have hsend : dispatch (initSyncState fs) (.send "/p,0644") =
      (⟨fs, some "/p", 0o644, [], false⟩, []) := rfl
  have hdata1 : dispatch (⟨fs, some "/p", 0o644, [], false⟩ : SyncState)
      (.data X) = (⟨fs, some "/p", 0o644, X, false⟩, []) := rfl
  have hdata2 : dispatch (⟨fs, some "/p", 0o644, X, false⟩ : SyncState)
      (.data Y) = (⟨fs, some "/p", 0o644, X ++ Y, false⟩, []) := rfl
  have hdone : dispatch (⟨fs, some "/p", 0o644, X ++ Y, false⟩ : SyncState)
      (.done []) = (⟨fs2, none, 0o664, [], false⟩, [SyncReply.okayR]) := by
    show handleDone _ = _
    rw [handleDone]
    simp only [show pathFalsy (some "/p") = false from rfl,
      Bool.false_eq_true, if_false]
    simp only [show (some "/p").getD "" = "/p" from rfl]
    rw [hw]
  have hrun : runMsgs (initSyncState fs)
      [.send "/p,0644", .data X, .data Y, .done []] =
      (⟨fs2, none, 0o664, [], false⟩, [SyncReply.okayR]) := by
    simp only [runMsgs, List.foldl, hsend, hdata1, hdata2, hdone]
    rfl
  rw [hrun]
  refine ⟨rfl, ?_, e2, ?_, hf2, hc2, hm2⟩
  · show read_file fs2 "/p" = .ok (X ++ Y)
    have hr := read_file_file fs2 "/p" e2 he2 hf2
    rw [hc2] at hr
    exact hr
  · show fs2 ["p"] = some e2
    exact he2

/-- Witness for C3 on a fresh filesystem with `X = [1,2]`, `Y = [3]`. -/
theorem C3_sync_send_data_done_witness :
    FsWF initFS ∧
      (initFS ["p"] = none ∨
        ∃ e, initFS ["p"] = some e ∧ e.node_type = "file") ∧
      (runMsgs (initSyncState initFS)
        [.send "/p,0644", .data [1, 2], .data [3], .done []]).2 =
        [SyncReply.okayR] := by
  have hwf : FsWF initFS := by
    intro p e hpe
    by_cases hp : p = []
    · subst hp
      have he : e = rootEntry := by
        simpa [initFS] using hpe.symm
      rw [he]
      rfl
    · exfalso
      simp [initFS, hp] at hpe
  exact ⟨hwf, .inl rfl,
    (C3_sync_send_data_done initFS [1, 2] [3] hwf (.inl rfl)).1⟩

end AdbSync

namespace AdbShell

open AdbFs

/-- `ShellResponse` from `adb_server/shell.py`. -/
structure ShellResponse where
  stdout : String
  stderr : String
  exit_code : Nat
deriving DecidableEq, Repr

/-- `ShellResponse.as_text`: stdout followed by stderr when stderr is
non-empty, else stdout. -/
def asText (r : ShellResponse) : String :=
  if r.stderr ≠ "" then r.stdout ++ r.stderr else r.stdout

/-- `output.replace("\n", "\r\n")`: every LF becomes CR-LF (structural
model of `str.replace` for this fixed pattern). -/
def crlfTranslate (s : String) : String :=
  String.mk (s.toList.foldr
    (fun c acc => if c = '\n' then '\r' :: '\n' :: acc else c :: acc) [])

/-- `ShellStream._send_response`: the payload chunks it sends — one chunk
when the output is non-empty, with newlines CR-LF-translated
unconditionally (the function does not consult `interactive`). -/
def sendResponseChunks (r : ShellResponse) : List String :=
  if asText r ≠ "" then [crlfTranslate (asText r)] else []

/-- `ShellStream.start` for a one-shot stream (`initial_command` set):
execute the command against the backend shell, send the response, close.
Returns the payload chunks sent before the close. -/
def startOneShot (shellExecute : String → ShellResponse) (cmd : String) :
    List String :=
  sendResponseChunks (shellExecute cmd)

/-- `shlex.split` modelled for quote-free commands: whitespace-separated
tokens. -/
def tokenizeSimple (s : String) : List String :=
  (splitChar ' ' s).filter (fun t => t != "")

/-- `ShellEnvironment.cmd_echo`: drop `-n` flags, join the remaining
arguments with single spaces, append a newline unless `-n` was given. -/
def cmd_echo (args : List String) : ShellResponse :=
  let outputArgs := args.filter (fun a => a != "-n")
  ⟨String.intercalate " " outputArgs ++
    (if args.contains "-n" then "" else "\n"), "", 0⟩

/-- `ShellEnvironment.execute` restricted to a single quote-free command
with no `;` chaining; only the `echo` builtin is modelled, any other
command name yields the not-found response of `_execute_single`. -/
def executeSimple (command : String) : ShellResponse :=
  match tokenizeSimple command with
  | [] => ⟨"", "", 0⟩
  | cmd :: args =>
    if cmd = "echo" then cmd_echo args
    else ⟨"", "/system/bin/sh: " ++ cmd ++ ": not found\n", 127⟩

/-- C5 counterexample: the claim as stated is false — a one-shot
`shell:echo hi` stream sends the payload `"hi\r\n"`, not `"hi\n"`:
newline translation is applied in non-interactive mode too. -/
theorem C5_counterexample :
    startOneShot executeSimple "echo hi" = ["hi\r\n"] ∧
      ("hi\r\n" : String) ≠ "hi\n" := by
  exact ⟨rfl, by decide⟩

/-- C5 (amended): a one-shot shell stream sends the backend command's
output with every newline translated to CR-LF — the translation is
unconditional, not interactive-only — so `shell:echo hi` produces exactly
one chunk `"hi\r\n"`. -/
theorem C5_oneshot_output_translated :
    (∀ shellExecute : String → ShellResponse, ∀ cmd : String,
      startOneShot shellExecute cmd =
        if asText (shellExecute cmd) = "" then []
        else [crlfTranslate (asText (shellExecute cmd))]) ∧
    startOneShot executeSimple "echo hi" = ["hi\r\n"] := by
  constructor
  · intro shellExecute cmd
    rw [startOneShot, sendResponseChunks]
    by_cases h : asText (shellExecute cmd) = ""
    · rw [if_neg (by simpa using h), if_pos h]
    · rw [if_pos h, if_neg h]
  · rfl

end AdbShell

namespace AdbTransport

open AdbCodec

/-- Modelled from the spec: the command-tag constants of the
binary-protocol module imported by `adb_server/transport.py` (`COMMANDS`),
which is not present under `src/`; §6 of the spec fixes the values
(4-character ASCII tags as little-endian u32). -/
def CMD_CNXN : Nat := 0x4e584e43

def CMD_AUTH : Nat := 0x48545541

def CMD_OPEN : Nat := 0x4e45504f

def CMD_OKAY : Nat := 0x59414b4f

def CMD_CLSE : Nat := 0x45534c43

def CMD_WRTE : Nat := 0x45545257

/-- `str.startswith` (structural model). -/
def strStartsWith (s pre : String) : Bool :=
  pre.toList.isPrefixOf s.toList

/-- Python string slicing `s[n:]` (structural model). -/
def strDrop (s : String) (n : Nat) : String :=
  String.mk (s.toList.drop n)

/-- The service-stream kinds `_create_stream` can build. -/
inductive StreamKind where
  | shellOneShot (command : String)
  | shellInteractive
  | syncStream
  | logcatStream
deriving DecidableEq, Repr

/-- `ADBTransportSession._create_stream`, as the service-dispatch
decision: which stream kind a service string creates, `none` for an
unrecognised service. -/
def createStreamKind (service : String) : Option StreamKind :=
  if strStartsWith service "shell:" then
    if strDrop service 6 ≠ "" then some (.shellOneShot (strDrop service 6))
    else some .shellInteractive
  else if strStartsWith service "exec:" then
    some (.shellOneShot (strDrop service 5))
  else if strStartsWith service "sync:" then some .syncStream
  else if strStartsWith service "logcat" then some .logcatStream
  else none

/-- The per-session state of `ADBTransportSession`: negotiated
max-payload (4096 before CNXN), the two stream tables (dictionaries
modelled as association lists, most recent binding first), the monotonic
remote-id counter, and the active flag. -/
structure TransportState where
  max_payload : Nat
  streams_by_local : List (Nat × StreamKind)
  streams_by_remote : List (Nat × StreamKind)
  next_remote_id : Nat
  active : Bool

/-- `ADBTransportSession.__init__`. -/
def initTransportState : TransportState := ⟨4096, [], [], 1, true⟩

/-- `_handle_cnxn`: record `min(packet.arg1, 256 * 1024)` as the session
max-payload and reply CNXN with `arg0 = packet.arg0`, `arg1` the recorded
max-payload and the device banner as payload (`bannerBytes` stands for
the UTF-8-encoded banner). -/
def handleCnxn (st : TransportState) (pkt : ADBPacket)
    (bannerBytes : List Nat) : TransportState × List ADBPacket :=
  ({ st with max_payload := min pkt.arg1 (256 * 1024) },
    [⟨CMD_CNXN, pkt.arg0, min pkt.arg1 (256 * 1024), bannerBytes⟩])

/-- `_handle_open`: the service string (the NUL-stripped UTF-8 payload)
arrives pre-decoded; allocate the next remote id, then create the stream.
An unrecognised service replies `CLSE(remote_id, local_id)`; a recognised
one is registered in both tables and `OKAY(remote_id, local_id)` is sent
(the output of the subsequent `stream.start()` is modelled separately by
the shell-stream section). -/
def handleOpen (st : TransportState) (localId : Nat) (service : String) :
    TransportState × List ADBPacket :=
  match createStreamKind service with
  | none =>
    ({ st with next_remote_id := st.next_remote_id + 1 },
      [⟨CMD_CLSE, st.next_remote_id, localId, []⟩])
  | some kind =>
    ({ st with
        next_remote_id := st.next_remote_id + 1
        streams_by_local := (localId, kind) :: st.streams_by_local
        streams_by_remote := (st.next_remote_id, kind) ::
          st.streams_by_remote },
      [⟨CMD_OKAY, st.next_remote_id, localId, []⟩])

/-- C6 counterexample: the claim as stated is false — on a CNXN whose
peer max-payload is 0, `_handle_cnxn` records `min(0, 262144) = 0`, not
4096 (the 4096 fallback exists only as the pre-CNXN initial value). -/
theorem C6_counterexample :
    (handleCnxn initTransportState ⟨CMD_CNXN, 0x01000001, 0, []⟩ []).1.max_payload
      = 0 ∧ (0 : Nat) ≠ 4096 := by
  exact ⟨rfl, by decide⟩

/-- C6 (amended): `_handle_cnxn` always records `min(m, 262144)` — also
when the peer advertises `m = 0`, where it records 0; 4096 is only the
initial pre-CNXN default — and replies CNXN carrying the recorded value
in `arg1`. -/
theorem C6_cnxn_max_payload :
    (∀ (st : TransportState) (pkt : ADBPacket) (banner : List Nat),
      (handleCnxn st pkt banner).1.max_payload = min pkt.arg1 262144 ∧
      (handleCnxn st pkt banner).2 =
        [⟨CMD_CNXN, pkt.arg0, min pkt.arg1 262144, banner⟩]) ∧
    initTransportState.max_payload = 4096 ∧
    (∀ (st : TransportState) (banner : List Nat),
      (handleCnxn st ⟨CMD_CNXN, 0x01000001, 0, []⟩ banner).1.max_payload = 0) :=
  ⟨fun _ _ _ => ⟨rfl, rfl⟩, rfl, fun _ _ => rfl⟩

/-- C7 counterexample: the claim as stated is false — opening the
unrecognised service `"bogus:"` on a fresh session replies
`CLSE(1, 7)`, whose `arg0` is the freshly allocated server-side id 1,
not 0. -/
theorem C7_counterexample :
    (handleOpen initTransportState 7 "bogus:").2 =
      [⟨CMD_CLSE, 1, 7, []⟩] ∧ (1 : Nat) ≠ 0 := by
  exact ⟨rfl, by decide⟩

/-- C7 (amended): an OPEN naming an unrecognised service is answered
with a CLSE whose `arg0` is the freshly allocated (nonzero) server-side
stream id and whose `arg1` is the peer's id; no stream is added to either
stream table, though the id counter still advances. -/
theorem C7_open_unknown_service (st : TransportState) (localId : Nat)
    (service : String) (hsvc : createStreamKind service = none)
    (hid : 1 ≤ st.next_remote_id) :
    handleOpen st localId service =
      ({ st with next_remote_id := st.next_remote_id + 1 },
        [⟨CMD_CLSE, st.next_remote_id, localId, []⟩]) ∧
    (handleOpen st localId service).1.streams_by_local =
      st.streams_by_local ∧
    (handleOpen st localId service).1.streams_by_remote =
      st.streams_by_remote ∧
    st.next_remote_id ≠ 0 := by
  rw [handleOpen, hsvc]
  exact ⟨rfl, rfl, rfl, by omega⟩

/-- Witness for C7 on a fresh session and the service `"bogus:"`. -/
theorem C7_open_unknown_service_witness :
    createStreamKind "bogus:" = none ∧ 1 ≤ initTransportState.next_remote_id ∧
      (handleOpen initTransportState 7 "bogus:").1.streams_by_local =
        initTransportState.streams_by_local :=
  ⟨rfl, by decide,
    (C7_open_unknown_service initTransportState 7 "bogus:" rfl
      (by decide)).2.1⟩

end AdbTransport

namespace AdbHost

open AdbTransport

/-- Replies of the host text protocol (`_send_okay` / `_send_fail`). -/
inductive HostReply where
  | okay (payload : String)
  | fail (msg : String)
deriving DecidableEq, Repr

/-- Split a character list at the first occurrence of a separator. -/
def partitionAux (sep : Char) : List Char → Option (List Char × List Char)
  | [] => none
  | c :: cs =>
    if c = sep then some ([], cs)
    else
      match partitionAux sep cs with
      | none => none
      | some (b, a) => some (c :: b, a)

/-- Python `str.partition(sep)` for a one-character separator: the text
before the first occurrence, the separator, and the text after; the whole
string and two empties when the separator does not occur. -/
def pyPartition (s : String) (sep : Char) : String × String × String :=
  match partitionAux sep s.toList with
  | none => (s, "", "")
  | some (b, a) => (String.mk b, String.mk [sep], String.mk a)

/-- `ADBHostSession._handle_host_command` restricted to the stateless
commands the claims exercise (`version`, the `transport*` family,
`get-state`, `get-serialno`, `devices`, `features`); the stateful
`devices-l`/forward/reboot/kill branches are omitted, and unknown
commands raise `HostProtocolError` (modelled as `.error`). -/
def handleHostCommand (deviceSerial deviceState : String) (command : String) :
    Except String (List HostReply) :=
  if command = "version" then .ok [.okay "001f"]
  else if command = "transport-any" ∨ command = "transport" ∨
      command = "transport-usb" ∨ command = "transport-local" then
    .ok [.okay ""]
  else if strStartsWith command "get-state" then .ok [.okay deviceState]
  else if strStartsWith command "get-serialno" then .ok [.okay deviceSerial]
  else if strStartsWith command "devices" then
    .ok [.okay (deviceSerial ++ "\tdevice\n")]
  else if command = "features" then .ok [.okay ""]
  else .error ("Unsupported host command: " ++ command)

/-- `ADBHostSession._handle_request`: the `host-serial:` branch partitions
the request at its FIRST colon into `serial_part = "host-serial"` and
`rest = "<serial>:<inner>"`, then takes the text after the first colon of
`serial_part` — which is always empty — as the serial to verify, and on a
match passes `rest` (not `<inner>`) to the host-command handler.  The
`host:` branch strips the prefix and dispatches; anything else raises. -/
def handleRequest (deviceSerial deviceState : String) (request : String) :
    Except String (List HostReply) :=
  if strStartsWith request "host-serial:" then
    let serialPart := (pyPartition request ':').1
    let rest := (pyPartition request ':').2.2
    let serial2 := (pyPartition serialPart ':').2.2
    if serial2 ≠ deviceSerial then .error ("Unknown serial " ++ serial2)
    else handleHostCommand deviceSerial deviceState rest
  else if strStartsWith request "host:" then
    handleHostCommand deviceSerial deviceState (strDrop request 5)
  else .error ("Unsupported request: " ++ request)

/-- C9: the code contradicts the specified behaviour.  With the default
configured serial `"MOCK123456"`, the request
`host-serial:MOCK123456:version` fails with `Unknown serial ` (the code
extracts the serial from the literal `"host-serial"`, which yields the
empty string) although the bare `version` command succeeds with
`OKAY "001f"`; and even with an empty configured serial, the inner
command is mis-handled because the serial prefix is left attached. -/
theorem C9_host_serial_broken :
    handleRequest "MOCK123456" "device" "host-serial:MOCK123456:version" =
      .error "Unknown serial " ∧
    handleHostCommand "MOCK123456" "device" "version" =
      .ok [.okay "001f"] ∧
    (pyPartition "host-serial" ':').2.2 = "" ∧
    handleRequest "" "device" "host-serial:ABC:version" =
      .error "Unsupported host command: ABC:version" := by
  exact ⟨rfl, rfl, rfl, rfl⟩

end AdbHost
